import Mathlib

/-!
Shallow embedding of the agentic tool-calling core of the OpenClaw backend:
the tool registry and bash tool of backend/tools.ts, the skill router and
context assembler of context.ts, and the streaming agent loop
runAgentLoopStreaming. External effects — the OpenAI client, process
spawning, JSON.parse — are modelled as explicit environment oracles;
fallible calls return Except.
-/

/-- ToolResult from tools.ts: success flag, output string, optional error. -/
structure ToolResult where
  success : Bool
  output : String
  error : Option String
  deriving Repr, DecidableEq

/-- Rendering of a possibly-absent string inside a TS template literal:
an undefined value prints as the text undefined. -/
def tsTemplate : Option String → String
  | none => "undefined"
  | some s => s

/-- Drop leading whitespace characters from a character list. -/
def dropLeadingWs : List Char → List Char
  | [] => []
  | c :: cs => if c.isWhitespace then dropLeadingWs cs else c :: cs

/-- Executable model of the JS String.prototype.trim builtin: strip
whitespace from both ends. -/
def jsTrim (s : String) : String :=
  String.mk ((dropLeadingWs (dropLeadingWs s.data).reverse).reverse)

/-- formatToolResult from tools.ts: on success the raw output, on failure
the composite Error-colon line followed by the output, trimmed. -/
def formatToolResult (result : ToolResult) : String :=
  if result.success then result.output
  else jsTrim ("Error: " ++ tsTemplate result.error ++ "\n" ++ result.output)

/-- Outcome of spawning bash and reading its stdout to completion:
captured stdout, the process exit code and stderr (the source ignores the
last two). -/
structure BashOutcome where
  stdout : String
  exitCode : Int
  stderr : String
  deriving Repr, DecidableEq

/-- Oracles for the effectful calls inside executeBashCommand:
syncAuth models syncGogCliAuthIfNeeded (which may throw), spawn models
Bun.spawn plus reading proc.stdout (an Except.error covers a throw in
either spawning or reading). -/
structure SpawnEnv where
  syncAuth : String → Except String Unit
  spawn : String → Except String BashOutcome

/-- executeBashCommand from tools.ts: sync gog auth, spawn bash with the
command, read stdout; success is unconditional when nothing throws, with
the literal no-output placeholder when stdout is empty; any throw is
caught and becomes a failed ToolResult. -/
def executeBashCommand (env : SpawnEnv) (command : String) : ToolResult :=
  match env.syncAuth command with
  | Except.error e =>
      ToolResult.mk false "" (some ("Failed to execute command: " ++ e))
  | Except.ok _ =>
      match env.spawn command with
      | Except.error e =>
          ToolResult.mk false "" (some ("Failed to execute command: " ++ e))
      | Except.ok proc =>
          ToolResult.mk true
            (if proc.stdout = "" then "(no output)" else proc.stdout) none

/-- JSON values, the shape of a parsed Record of string to unknown. -/
inductive Json where
  | null
  | bool (b : Bool)
  | num (n : Int)
  | str (s : String)
  | arr (elems : List Json)
  | obj (fields : List (String × Json))

/-- Projection of a string field out of a parsed argument object, modelling
the TS read args.command as string (non-object or missing or non-string
yields the empty string). -/
def jsonStrField (j : Json) (key : String) : String :=
  match j with
  | Json.obj fields =>
      match fields.find? (fun p => p.1 == key) with
      | some p =>
          match p.2 with
          | Json.str s => s
          | _ => ""
      | none => ""
  | _ => ""

/-- ToolDefinition from tools.ts: registered name, schema description and
executor (the OpenAI schema payload is not needed by any claim and is
elided to its description string). -/
structure ToolDefinition where
  name : String
  description : String
  execute : Json → ToolResult

/-- The bash command tool registered in tools.ts. -/
def bashCommandTool (env : SpawnEnv) : ToolDefinition :=
  ToolDefinition.mk "run_bash_command" "Execute a bash command."
    (fun args => executeBashCommand env (jsonStrField args "command"))

/-- The tool registry of tools.ts: a name-keyed map holding exactly the
bash command tool, modelled as an insertion-ordered association list. -/
def toolRegistry (env : SpawnEnv) : List (String × ToolDefinition) :=
  [("run_bash_command", bashCommandTool env)]

/-- executeTool from tools.ts: look the name up in the registry; an unknown
name becomes a failed ToolResult carrying an Unknown-tool error instead of
a throw. -/
def executeTool (env : SpawnEnv) (name : String) (args : Json) : ToolResult :=
  match (toolRegistry env).find? (fun p => p.1 == name) with
  | none => ToolResult.mk false "" (some ("Unknown tool: " ++ name))
  | some p => p.2.execute args

/-- Truthiness of a TS string-or-absent value: undefined, null and the
empty string are falsy. -/
def tsTruthy : Option String → Bool
  | none => false
  | some s => !(s == "")

/-- Value of the TS expression x or-else empty-string. -/
def tsOr : Option String → String
  | none => ""
  | some s => s

/-- Message roles of the chat API. -/
inductive Role where
  | system
  | user
  | assistant
  | tool
  deriving Repr, DecidableEq

/-- ToolCallRequest: a finalized tool call of an assistant message, with
its correlation id, function name and raw argument text. -/
structure ToolCallRequest where
  id : String
  name : String
  arguments : String
  deriving Repr, DecidableEq

/-- One chat message: role, optional text content, the tool calls of an
assistant message, and the tool-call back-reference of a tool message. -/
structure Msg where
  role : Role
  content : Option String
  tool_calls : List ToolCallRequest
  tool_call_id : Option String
  deriving Repr, DecidableEq

/-- A plain system message. -/
def systemMsg (s : String) : Msg := Msg.mk Role.system (some s) [] none

/-- A tool message carrying a formatted tool result. -/
def toolMsg (id content : String) : Msg :=
  Msg.mk Role.tool (some content) [] (some id)

/-- SkillMeta from context.ts (the optional homepage and metadata fields
play no role in any claim). -/
structure SkillMeta where
  name : String
  description : String
  deriving Repr, DecidableEq

/-- Skill from context.ts: folder name, frontmatter meta and the full
documentation body. -/
structure Skill where
  folderName : String
  meta : SkillMeta
  content : String
  deriving Repr, DecidableEq

/-- A role-and-content record as consumed by selectSkills. -/
structure ChatMessage where
  role : String
  content : String
  deriving Repr, DecidableEq

/-- The per-skill summary block of the router prompt. -/
def skillSummaries (availableSkills : List Skill) : String :=
  String.intercalate "\n"
    (availableSkills.map (fun s => "- " ++ s.meta.name ++ ": " ++ s.meta.description))

/-- The last three user-role messages joined by newlines, modelling
filter-then-slice(-3)-then-join from selectSkills. -/
def recentUserMessages (userMessages : List ChatMessage) : String :=
  let us := userMessages.filter (fun m => m.role == "user")
  String.intercalate "\n" ((us.drop (us.length - 3)).map ChatMessage.content)

/-- The classification prompt selectSkills sends to the router model. -/
def routerPrompt (availableSkills : List Skill) (userMessages : List ChatMessage) : String :=
  "You are a skill router. Based on the user\x27s request, determine which skills (if any) are needed to help them.\n\nAvailable skills:\n"
    ++ skillSummaries availableSkills
    ++ "\n\nRespond with ONLY a JSON array of skill names that are relevant to help with this request.\n- Return [] (empty array) if no skills are needed (e.g., for general questions, greetings, or topics not covered by any skill)\n- Return one or more skill names if they are needed\n- Only include skills that are directly relevant to the user\x27s request\n\nExamples of valid responses:\n[\"gog\"]\n[\"linkedin-cli\", \"notion\"]\n[]\n\nUser\x27s request:\n"
    ++ recentUserMessages userMessages

/-- Oracles for the effectful calls inside selectSkills: routerCall models
the chat completion on the router prompt, returning the possibly-absent
message content or throwing; jsonParse models JSON.parse, none meaning a
parse throw. -/
structure RouterEnv where
  routerCall : String → Except String (Option String)
  jsonParse : String → Option Json

/-- Whether a JSON value is an array, modelling Array.isArray. -/
def isJsonArr : Json → Bool
  | Json.arr _ => true
  | _ => false

/-- The content string selectSkills parses: the trimmed router reply, or
the empty-array literal when the reply is absent or trims to empty. -/
def routerContent (co : Option String) : String :=
  match co with
  | none => "[]"
  | some c => if jsTrim c = "" then "[]" else jsTrim c

/-- Membership of a string in a parsed JSON array, modelling the JS
includes check with strict equality against a string. -/
def jsonIncludesStr (xs : List Json) (s : String) : Bool :=
  xs.any (fun j =>
    match j with
    | Json.str t => t == s
    | _ => false)

/-- selectSkills from context.ts: empty catalog short-circuits to the
empty selection; a throwing router call falls back to the whole catalog;
an unparseable or non-array reply yields no selected names; otherwise the
catalog is filtered to skills whose meta name or folder name is listed. -/
def selectSkills (env : RouterEnv) (userMessages : List ChatMessage)
    (availableSkills : List Skill) : List Skill :=
  if availableSkills.length = 0 then []
  else
    match env.routerCall (routerPrompt availableSkills userMessages) with
    | Except.error _ => availableSkills
    | Except.ok co =>
        let content := routerContent co
        let selectedNames : List Json :=
          match env.jsonParse content with
          | none => []
          | some (Json.arr xs) => xs
          | some _ => []
        availableSkills.filter (fun s =>
          jsonIncludesStr selectedNames s.meta.name ||
          jsonIncludesStr selectedNames s.folderName)

/-- buildToolsMessage from context.ts: null when no skill was selected,
else the Available-Tools header followed by each skill\x27s documentation
under an upper-cased heading, joined by rulers, in selection order. -/
def buildToolsMessage (selectedSkills : List Skill) : Option String :=
  if selectedSkills.length = 0 then none
  else
    let skillDocs := String.intercalate "\n\n---\n\n"
      (selectedSkills.map (fun s => "## " ++ s.meta.name.toUpper ++ "\n\n" ++ s.content))
    some ("# Available Tools\n\nYou now have access to the following tools. Use them to help the user with their request:\n\n"
      ++ skillDocs)

/-- buildMessages from context.ts: the base system prompt, then the tools
message as a second system message when truthy, then the conversation
history unmodified. -/
def buildMessages (baseSystemPrompt : String) (toolsMessage : Option String)
    (conversationHistory : List Msg) : List Msg :=
  ([systemMsg baseSystemPrompt] ++
    (if tsTruthy toolsMessage then [systemMsg (tsOr toolsMessage)] else []))
    ++ conversationHistory

/-- ContextManager.buildContextMessages: buildMessages applied to the
tools message built from the selected skills. -/
def buildContextMessages (baseSystemPrompt : String) (selectedSkills : List Skill)
    (conversationHistory : List Msg) : List Msg :=
  buildMessages baseSystemPrompt (buildToolsMessage selectedSkills) conversationHistory

/-- AgentLoopConfig from agent-loop.ts: iteration bound and model name. -/
structure AgentLoopConfig where
  maxIterations : Nat
  model : String
  deriving Repr, DecidableEq

/-- Events emitted by the streaming agent loop, with the fields the
streaming implementation attaches to each variant. -/
inductive Event where
  | iteration (iteration maxIterations : Nat)
  | content (content : String)
  | tool_call (name icon label toolCallId : String)
  | tool_result (toolCallId name icon label : String) (url : Option String)
      (success : Bool) (output : Option String) (error : Option String)
  | error (error : String)
  deriving Repr, DecidableEq

/-- One tool-call delta inside a stream chunk: the stable accumulator
index, and optional id, function name and argument-text fragments. -/
structure ToolCallDelta where
  index : Nat
  id : Option String
  name : Option String
  arguments : Option String
  deriving Repr, DecidableEq

/-- One stream chunk as seen by the loop (choices zero's delta): optional
content fragment, tool-call deltas and optional finish reason. -/
structure Chunk where
  content : Option String
  tool_calls : List ToolCallDelta
  finish_reason : Option String
  deriving Repr, DecidableEq

/-- Per-index tool-call accumulator of the streaming loop. -/
structure ToolCallAccum where
  id : String
  name : String
  arguments : String
  deriving Repr, DecidableEq

/-- Merge of one tool-call delta into an existing accumulator entry: a
truthy id or name overwrites, a truthy argument fragment is appended. -/
def updateAccum (tc : ToolCallAccum) (d : ToolCallDelta) : ToolCallAccum :=
  let tc := if tsTruthy d.id then { tc with id := tsOr d.id } else tc
  let tc := if tsTruthy d.name then { tc with name := tsOr d.name } else tc
  if tsTruthy d.arguments then { tc with arguments := tc.arguments ++ tsOr d.arguments }
  else tc

/-- Merge of one tool-call delta into the accumulator map: a first-seen
index is inserted at the end with empty arguments (id and name defaulted
from the delta), then the entry is updated in place; JS Map iteration
order is insertion order, modelled by an association list. -/
def applyToolCallDelta (m : List (Nat × ToolCallAccum)) (d : ToolCallDelta) :
    List (Nat × ToolCallAccum) :=
  let m1 := if (m.find? (fun p => p.1 == d.index)).isSome then m
            else m ++ [(d.index, ToolCallAccum.mk (tsOr d.id) (tsOr d.name) "")]
  m1.map (fun p => if p.1 == d.index then (p.1, updateAccum p.2 d) else p)

/-- Stream-consumption state of one loop iteration: the assistant content
buffer, the tool-call accumulator map, the latest finish reason, and the
content events emitted so far. -/
structure StreamState where
  assistantContent : String
  toolCalls : List (Nat × ToolCallAccum)
  finishReason : Option String
  events : List Event
  deriving Repr, DecidableEq

/-- The stream state at the start of an iteration. -/
def initStreamState : StreamState := StreamState.mk "" [] none []

/-- Consumption of one stream chunk: refresh the finish reason (nullish
coalescing keeps the previous one), forward a truthy content delta as a
content event while appending it to the buffer, and fold every tool-call
delta into the accumulator map. -/
def processChunk (st : StreamState) (c : Chunk) : StreamState :=
  let fr := match c.finish_reason with
    | some r => some r
    | none => st.finishReason
  let st1 := if tsTruthy c.content then
      StreamState.mk (st.assistantContent ++ tsOr c.content) st.toolCalls fr
        (st.events ++ [Event.content (tsOr c.content)])
    else StreamState.mk st.assistantContent st.toolCalls fr st.events
  StreamState.mk st1.assistantContent (c.tool_calls.foldl applyToolCallDelta st1.toolCalls)
    st1.finishReason st1.events

/-- Oracles for the effectful calls inside runAgentLoopStreaming: the
streaming chat completion (a throw or the chunk list it yields), JSON.parse
on argument text (none meaning a throw), the imported executeTool (which
may throw), and the imported tool-metadata helpers getToolIcon,
getToolLabel, extractResultUrl and shouldSuppressOutput. -/
structure LoopEnv where
  model : List Msg → Except String (List Chunk)
  parseArgs : String → Option Json
  execTool : String → Json → Except String ToolResult
  getToolIcon : String → String
  getToolLabel : String → Bool → String
  extractResultUrl : String → Option String
  shouldSuppressOutput : String → Bool

/-- Parsed argument object of a tool call: JSON.parse of the raw text,
falling back to the empty object when parsing throws. -/
def parsedArgs (env : LoopEnv) (raw : String) : Json :=
  match env.parseArgs raw with
  | some j => j
  | none => Json.obj []

/-- Execution of one accumulated tool call: emit the tool-call event,
run the executor, and on success emit the tool-result event (output
suppressed for flagged tools) and append the tool message; a throw is
reported to the caller via the third component. -/
def execToolCall (env : LoopEnv) (messages : List Msg) (tc : ToolCallAccum) :
    List Event × List Msg × Option String :=
  let args := parsedArgs env tc.arguments
  let callEv := Event.tool_call tc.name (env.getToolIcon tc.name)
    (env.getToolLabel tc.name false) tc.id
  match env.execTool tc.name args with
  | Except.error e => ([callEv], messages, some e)
  | Except.ok result =>
      let resEv := Event.tool_result tc.id tc.name (env.getToolIcon tc.name)
        (env.getToolLabel tc.name true) (env.extractResultUrl result.output) result.success
        (if env.shouldSuppressOutput tc.name then none else some result.output) result.error
      ([callEv, resEv], messages ++ [toolMsg tc.id (formatToolResult result)], none)

/-- Sequential execution of the accumulated tool calls in map order,
threading the message history; a throw stops the remaining calls and is
propagated with the events and messages produced so far. -/
def execToolCalls (env : LoopEnv) :
    List ToolCallAccum → List Msg → List Event × List Msg × Option String
  | [], messages => ([], messages, none)
  | tc :: rest, messages =>
      match execToolCall env messages tc with
      | (evs, messages1, some e) => (evs, messages1, some e)
      | (evs, messages1, none) =>
          match execToolCalls env rest messages1 with
          | (evs2, messages2, err2) => (evs ++ evs2, messages2, err2)

/-- The assistant message pushed when tool calls were accumulated: the
buffered content (null when empty) plus the finalized tool-call requests
in accumulator order. -/
def assistantMsgOf (st : StreamState) : Msg :=
  Msg.mk Role.assistant
    (if st.assistantContent == "" then none else some st.assistantContent)
    (st.toolCalls.map (fun p => ToolCallRequest.mk p.2.id p.2.name p.2.arguments)) none

/-- Result of a loop run: the emitted events, the final message history,
the final iteration counter and the number of model invocations. -/
structure LoopOut where
  events : List Event
  messages : List Msg
  iteration : Nat
  modelCalls : Nat
  deriving Repr, DecidableEq

/-- The while loop of runAgentLoopStreaming, with the remaining permitted
iterations as fuel (the while condition iteration less than maxIterations
is exactly fuel positive). Each iteration emits the iteration event,
consumes the model stream, and either executes the accumulated tool calls
and recurses, or ends the run: on a nonempty content buffer the assistant
message is appended, on an empty one the placeholder content event is
emitted; a model or tool throw emits an error event and ends the run. -/
def loopAux (env : LoopEnv) (cfg : AgentLoopConfig) :
    Nat → List Msg → Nat → LoopOut
  | 0, messages, iteration => LoopOut.mk [] messages iteration 0
  | fuel + 1, messages, iteration =>
      let iter := iteration + 1
      let iterEv := Event.iteration iter cfg.maxIterations
      match env.model messages with
      | Except.error e => LoopOut.mk [iterEv, Event.error e] messages iter 1
      | Except.ok chunks =>
          let st := chunks.foldl processChunk initStreamState
          if st.toolCalls.length > 0 then
            let messages1 := messages ++ [assistantMsgOf st]
            match execToolCalls env (st.toolCalls.map Prod.snd) messages1 with
            | (tevs, messages2, some e) =>
                LoopOut.mk (iterEv :: (st.events ++ tevs ++ [Event.error e])) messages2 iter 1
            | (tevs, messages2, none) =>
                let rest := loopAux env cfg fuel messages2 iter
                LoopOut.mk (iterEv :: (st.events ++ tevs ++ rest.events)) rest.messages
                  rest.iteration (rest.modelCalls + 1)
          else
            if st.assistantContent == "" then
              LoopOut.mk (iterEv :: (st.events ++ [Event.content "(No response)"]))
                messages iter 1
            else
              LoopOut.mk (iterEv :: st.events)
                (messages ++ [Msg.mk Role.assistant (some st.assistantContent) [] none]) iter 1

/-- The runaway-condition error message. -/
def maxIterationsError (n : Nat) : String :=
  "Reached maximum iterations (" ++ toString n
    ++ "). The agent may not have completed its task."

/-- runAgentLoopStreaming from agent-loop-streaming: run the while loop
from a copy of the initial messages, then emit the iteration-cap error
event whenever the final iteration counter reached the bound. -/
def runAgentLoopStreaming (env : LoopEnv) (initialMessages : List Msg)
    (cfg : AgentLoopConfig) : LoopOut :=
  let out := loopAux env cfg cfg.maxIterations initialMessages 0
  if out.iteration ≥ cfg.maxIterations then
    LoopOut.mk (out.events ++ [Event.error (maxIterationsError cfg.maxIterations)])
      out.messages out.iteration out.modelCalls
  else out

/-- Lookup of an accumulator entry by index, modelling Map.get. -/
def mapGet (m : List (Nat × ToolCallAccum)) (i : Nat) : Option ToolCallAccum :=
  (m.find? (fun p => p.1 == i)).map Prod.snd

/-- Whether an event is an error event. -/
def isErrorEvent : Event → Bool
  | Event.iteration _ _ => false
  | Event.content _ => false
  | Event.tool_call _ _ _ _ => false
  | Event.tool_result _ _ _ _ _ _ _ _ => false
  | Event.error _ => true

/-- Concrete spawn environment used by witnesses: auth sync succeeds and
spawning yields stdout hello with exit code 1 and nonempty stderr. -/
def spawnEnvW : SpawnEnv :=
  SpawnEnv.mk (fun _ => Except.ok ())
    (fun _ => Except.ok (BashOutcome.mk "hello" 1 "warn"))

/-- Router environment whose model call throws. -/
def routerEnvThrow : RouterEnv :=
  RouterEnv.mk (fun _ => Except.error "network error") (fun _ => none)

/-- Router environment whose model call returns unparseable text. -/
def routerEnvGarbage : RouterEnv :=
  RouterEnv.mk (fun _ => Except.ok (some "not json")) (fun _ => none)

/-- A concrete skill used by witnesses. -/
def skillA : Skill := Skill.mk "skill-a" (SkillMeta.mk "skillA" "does A") "Docs for A"

/-- Another concrete skill used by witnesses. -/
def skillB : Skill := Skill.mk "skill-b" (SkillMeta.mk "skillB" "does B") "Docs for B"

/-- A one-iteration loop configuration. -/
def cfgOne : AgentLoopConfig := AgentLoopConfig.mk 1 "gpt-4o-mini"

/-- A two-iteration loop configuration. -/
def cfgTwo : AgentLoopConfig := AgentLoopConfig.mk 2 "gpt-4o-mini"

/-- Loop environment whose model always answers with plain content and a
stop finish reason, and whose tools never throw. -/
def loopEnvTerminal : LoopEnv :=
  LoopEnv.mk (fun _ => Except.ok [Chunk.mk (some "hi") [] (some "stop")])
    (fun _ => none) (fun _ _ => Except.ok (ToolResult.mk true "" none))
    (fun _ => "gearshape") (fun _ _ => "Working...") (fun _ => none) (fun _ => false)

/-- A chunk carrying one complete tool-call delta. -/
def chunkTC : Chunk :=
  Chunk.mk none [ToolCallDelta.mk 0 (some "call_1") (some "run_bash_command") (some "\x7b\x7d")]
    (some "tool_calls")

/-- Loop environment whose model always requests one tool call and whose
tools always succeed. -/
def loopEnvTC : LoopEnv :=
  LoopEnv.mk (fun _ => Except.ok [chunkTC])
    (fun _ => some (Json.obj [])) (fun _ _ => Except.ok (ToolResult.mk true "done" none))
    (fun _ => "gearshape") (fun _ _ => "Working...") (fun _ => none) (fun _ => false)

/-- First accumulated tool call of the C2 witness. -/
def accumA : ToolCallAccum := ToolCallAccum.mk "call_a" "toolA" "\x7b\x7d"

/-- Second accumulated tool call of the C2 witness. -/
def accumB : ToolCallAccum := ToolCallAccum.mk "call_b" "toolB" "\x7b\x7d"

/-- Third accumulated tool call of the C2 witness. -/
def accumC : ToolCallAccum := ToolCallAccum.mk "call_c" "toolC" "\x7b\x7d"

/-- A streamed response declaring tool calls A then B then C at indexes
zero, one and two. -/
def chunksABC : List Chunk :=
  [Chunk.mk none [ToolCallDelta.mk 0 (some "call_a") (some "toolA") (some "\x7b\x7d")] none,
   Chunk.mk none [ToolCallDelta.mk 1 (some "call_b") (some "toolB") (some "\x7b\x7d")] none,
   Chunk.mk none [ToolCallDelta.mk 2 (some "call_c") (some "toolC") (some "\x7b\x7d")] (some "tool_calls")]

/-- The pure executor of the C2 witness: every tool succeeds with an
output naming the tool. -/
def execABC : String → Json → ToolResult :=
  fun n _ => ToolResult.mk true ("ran " ++ n) none

/-- Loop environment of the C2 witness: the model streams chunksABC and
the executor is execABC. -/
def loopEnvABC : LoopEnv :=
  LoopEnv.mk (fun _ => Except.ok chunksABC)
    (fun _ => some (Json.obj [])) (fun n a => Except.ok (execABC n a))
    (fun _ => "gearshape") (fun _ _ => "Working...") (fun _ => none) (fun _ => false)

/-- A streamed response splitting one tool call\x27s argument text into
three fragments across three chunks at index zero. -/
def chunksSplit : List Chunk :=
  [Chunk.mk none [ToolCallDelta.mk 0 (some "call_1") (some "run_bash_command") (some "\x7b\"a\":")] none,
   Chunk.mk none [ToolCallDelta.mk 0 none none (some "1,\"b\"")] none,
   Chunk.mk none [ToolCallDelta.mk 0 none none (some ":2\x7d")] (some "tool_calls")]

/-- A streamed response whose second delta carries a different non-empty
id and name for the same index as the first. -/
def chunksIdOverwrite : List Chunk :=
  [Chunk.mk none [ToolCallDelta.mk 0 (some "call_a") (some "tool_one") none] none,
   Chunk.mk none [ToolCallDelta.mk 0 (some "call_b") (some "tool_two") none] none]

lemma eq_empty_of_length_eq_zero (s : String) (h : s.length = 0) : s = "" := by
  cases s with
  | mk data =>
      cases data with
      | nil => rfl
      | cons c cs => simp [String.length] at h

lemma append_ne_empty_left (s t : String) (h : s ≠ "") : s ++ t ≠ "" := by
  intro hc
  have hlen := congrArg String.length hc
  rw [String.length_append] at hlen
  have hs : s.length ≠ 0 := fun h0 => h (eq_empty_of_length_eq_zero s h0)
  simp at hlen
  exact hs hlen.1

/-- C8: executeTool on a name not present in the registry returns a
ToolResult with success false, empty output and an error string containing
the text Unknown tool, for every argument value; being a total Lean
function, it never throws. -/
theorem executeTool_unknown (env : SpawnEnv) (name : String) (args : Json)
    (h : name ∉ (toolRegistry env).map Prod.fst) :
    executeTool env name args =
      ToolResult.mk false "" (some ("Unknown tool: " ++ name)) ∧
    ∃ pre suf,
      (executeTool env name args).error = some (pre ++ ("Unknown tool" ++ suf)) := by
  have hne : name ≠ "run_bash_command" := by
    simpa [toolRegistry] using h
  have hbeq : (("run_bash_command" : String) == name) = false :=
    beq_eq_false_iff_ne.mpr (Ne.symm hne)
  have hres : executeTool env name args =
      ToolResult.mk false "" (some ("Unknown tool: " ++ name)) := by
    simp [executeTool, toolRegistry, List.find?, bashCommandTool, hbeq]
  refine ⟨hres, "", ": " ++ name, ?_⟩
  rw [hres]
  show some ("Unknown tool: " ++ name) = some ("" ++ ("Unknown tool" ++ (": " ++ name)))
  have h1 : ("Unknown tool: " : String) ++ name = "Unknown tool" ++ (": " ++ name) := by
    have : ("Unknown tool: " : String) = "Unknown tool" ++ ": " := rfl
    rw [this, String.append_assoc]
  rw [h1, String.empty_append]

/-- Witness for C8 at the concrete unknown name does_not_exist. -/
theorem executeTool_unknown_witness :
    "does_not_exist" ∉ (toolRegistry spawnEnvW).map Prod.fst ∧
    executeTool spawnEnvW "does_not_exist" (Json.obj []) =
      ToolResult.mk false "" (some ("Unknown tool: " ++ "does_not_exist")) :=
  ⟨by decide,
   (executeTool_unknown spawnEnvW "does_not_exist" (Json.obj []) (by decide)).1⟩

/-- C9: formatToolResult returns the raw output verbatim on success for
every output string, and on failure the string Error-colon-space, the
error, a newline and the output, trimmed; in particular X maps to X and
the failure with output Y and error E renders as Error: E newline Y. -/
theorem formatToolResult_spec :
    (∀ (o : String) (e : Option String),
      formatToolResult (ToolResult.mk true o e) = o) ∧
    (∀ (o e : String),
      formatToolResult (ToolResult.mk false o (some e)) =
        jsTrim ("Error: " ++ e ++ "\n" ++ o)) ∧
    formatToolResult (ToolResult.mk true "X" none) = "X" ∧
    formatToolResult (ToolResult.mk false "Y" (some "E")) = "Error: E\nY" := by
  refine ⟨fun o e => rfl, fun o e => rfl, rfl, ?_⟩
  decide

/-- C10: for every command for which neither the auth sync nor spawning and
reading stdout throws, executeBashCommand returns success true with output
the captured stdout, or the no-output placeholder when stdout is empty,
regardless of the exit code and stderr; and a failed result can only arise
from a throw in the auth sync or in spawning. -/
theorem executeBashCommand_spec (env : SpawnEnv) (command : String) :
    (∀ out : BashOutcome,
      env.syncAuth command = Except.ok () →
      env.spawn command = Except.ok out →
      executeBashCommand env command =
        ToolResult.mk true
          (if out.stdout = "" then "(no output)" else out.stdout) none) ∧
    ((executeBashCommand env command).success = false →
      (∃ e, env.syncAuth command = Except.error e) ∨
      (∃ e, env.spawn command = Except.error e)) := by
  constructor
  · intro out h1 h2
    simp [executeBashCommand, h1, h2]
  · intro h
    cases hs : env.syncAuth command with
    | error e => exact Or.inl ⟨e, rfl⟩
    | ok u =>
        cases hp : env.spawn command with
        | error e => exact Or.inr ⟨e, rfl⟩
        | ok out =>
            exfalso
            simp [executeBashCommand, hs, hp] at h

/-- Witness for C10: on the concrete environment the command succeeds with
the captured stdout even though the exit code is 1 and stderr nonempty. -/
theorem executeBashCommand_spec_witness :
    spawnEnvW.syncAuth "ls" = Except.ok () ∧
    spawnEnvW.spawn "ls" = Except.ok (BashOutcome.mk "hello" 1 "warn") ∧
    executeBashCommand spawnEnvW "ls" =
      ToolResult.mk true (if "hello" = "" then "(no output)" else "hello") none :=
  ⟨rfl, rfl,
   (executeBashCommand_spec spawnEnvW "ls").1 (BashOutcome.mk "hello" 1 "warn") rfl rfl⟩

/-- C6: selectSkills returns the empty selection on an empty catalog for
every environment (so without consulting the router oracle); returns the
whole catalog when the router call throws; and returns the empty selection
when the router reply fails to parse or parses to a non-array. -/
theorem selectSkills_spec (env : RouterEnv) (userMessages : List ChatMessage)
    (availableSkills : List Skill) :
    (selectSkills env userMessages [] = []) ∧
    (∀ e, env.routerCall (routerPrompt availableSkills userMessages) = Except.error e →
      selectSkills env userMessages availableSkills = availableSkills) ∧
    (∀ co, env.routerCall (routerPrompt availableSkills userMessages) = Except.ok co →
      (env.jsonParse (routerContent co) = none ∨
        ∃ j, env.jsonParse (routerContent co) = some j ∧ isJsonArr j = false) →
      selectSkills env userMessages availableSkills = []) := by
  refine ⟨by simp [selectSkills], ?_, ?_⟩
  · intro e he
    cases availableSkills with
    | nil => simp [selectSkills]
    | cons a as => simp [selectSkills, he]
  · intro co hco hparse
    cases availableSkills with
    | nil => simp [selectSkills]
    | cons a as =>
        rcases hparse with hnone | ⟨j, hj, hnarr⟩
        · simp [selectSkills, hco, hnone, jsonIncludesStr]
        · cases j with
          | arr xs => simp [isJsonArr] at hnarr
          | null => simp [selectSkills, hco, hj, jsonIncludesStr]
          | bool b => simp [selectSkills, hco, hj, jsonIncludesStr]
          | num n => simp [selectSkills, hco, hj, jsonIncludesStr]
          | str s => simp [selectSkills, hco, hj, jsonIncludesStr]
          | obj fs => simp [selectSkills, hco, hj, jsonIncludesStr]

/-- Witness for C6: a throwing router call selects the full two-skill
catalog, while a garbage reply selects nothing. -/
theorem selectSkills_spec_witness :
    selectSkills routerEnvThrow [] [skillA, skillB] = [skillA, skillB] ∧
    selectSkills routerEnvGarbage [] [skillA, skillB] = [] :=
  ⟨(selectSkills_spec routerEnvThrow [] [skillA, skillB]).2.1 "network error" rfl,
   (selectSkills_spec routerEnvGarbage [] [skillA, skillB]).2.2 (some "not json") rfl
     (Or.inl rfl)⟩

/-- C7: building the context with no selected skill yields exactly the
base system message followed by the history unmodified; with a nonempty
selection it yields the base system message, then one more system message
holding the Available-Tools header and each selected skill\x27s
documentation under its heading in selection order, then the history
unmodified. -/
theorem buildContextMessages_spec (base : String) (history : List Msg)
    (selectedSkills : List Skill) :
    buildContextMessages base [] history = systemMsg base :: history ∧
    (selectedSkills ≠ [] →
      buildContextMessages base selectedSkills history =
        systemMsg base ::
          systemMsg ("# Available Tools\n\nYou now have access to the following tools. Use them to help the user with their request:\n\n"
            ++ String.intercalate "\n\n---\n\n"
              (selectedSkills.map (fun s => "## " ++ s.meta.name.toUpper ++ "\n\n" ++ s.content)))
          :: history) := by
  constructor
  · simp [buildContextMessages, buildMessages, buildToolsMessage, tsTruthy]
  · intro h
    cases selectedSkills with
    | nil => exact absurd rfl h
    | cons a as =>
        have hne :
            ("# Available Tools\n\nYou now have access to the following tools. Use them to help the user with their request:\n\n"
              ++ String.intercalate "\n\n---\n\n"
                (("## " ++ a.meta.name.toUpper ++ "\n\n" ++ a.content) ::
                  List.map (fun s => "## " ++ s.meta.name.toUpper ++ "\n\n" ++ s.content) as)) ≠ "" :=
          append_ne_empty_left _ _ (by decide)
        simp [buildContextMessages, buildMessages, buildToolsMessage, tsTruthy, tsOr, hne]

/-- Witness for C7 at a concrete one-skill selection and one-message
history. -/
theorem buildContextMessages_spec_witness :
    [skillA] ≠ ([] : List Skill) ∧
    buildContextMessages "base prompt" [skillA] [Msg.mk Role.user (some "hi") [] none] =
      systemMsg "base prompt" ::
        systemMsg ("# Available Tools\n\nYou now have access to the following tools. Use them to help the user with their request:\n\n"
          ++ String.intercalate "\n\n---\n\n"
            ([skillA].map (fun s => "## " ++ s.meta.name.toUpper ++ "\n\n" ++ s.content)))
        :: [Msg.mk Role.user (some "hi") [] none] :=
  ⟨by decide,
   (buildContextMessages_spec "base prompt" [Msg.mk Role.user (some "hi") [] none] [skillA]).2
     (by decide)⟩

lemma tsOr_eq_empty (o : Option String) (h : tsTruthy o = false) : tsOr o = "" := by
  cases o with
  | none => rfl
  | some s =>
      simp [tsTruthy] at h
      simpa [tsOr] using h

lemma updateAccum_arguments (tc : ToolCallAccum) (d : ToolCallDelta) :
    (updateAccum tc d).arguments = tc.arguments ++ tsOr d.arguments := by
  by_cases h1 : tsTruthy d.id <;> by_cases h2 : tsTruthy d.name <;>
    by_cases h3 : tsTruthy d.arguments <;>
      simp [updateAccum, h1, h2, h3, tsOr_eq_empty, String.append_empty]

lemma updateAccum_id (tc : ToolCallAccum) (d : ToolCallDelta) :
    (updateAccum tc d).id = if tsTruthy d.id then tsOr d.id else tc.id := by
  by_cases h1 : tsTruthy d.id <;> by_cases h2 : tsTruthy d.name <;>
    by_cases h3 : tsTruthy d.arguments <;>
      simp [updateAccum, h1, h2, h3]

lemma updateAccum_name (tc : ToolCallAccum) (d : ToolCallDelta) :
    (updateAccum tc d).name = if tsTruthy d.name then tsOr d.name else tc.name := by
  by_cases h1 : tsTruthy d.id <;> by_cases h2 : tsTruthy d.name <;>
    by_cases h3 : tsTruthy d.arguments <;>
      simp [updateAccum, h1, h2, h3]

lemma updateAccum_init_eq (d : ToolCallDelta) :
    updateAccum (ToolCallAccum.mk (tsOr d.id) (tsOr d.name) "") d =
      updateAccum (ToolCallAccum.mk "" "" "") d := by
  by_cases h1 : tsTruthy d.id <;> by_cases h2 : tsTruthy d.name <;>
    by_cases h3 : tsTruthy d.arguments <;>
      simp [updateAccum, h1, h2, h3, tsOr_eq_empty]

lemma foldl_applyToolCallDelta_single (i : Nat) :
    ∀ (ds : List ToolCallDelta) (tc : ToolCallAccum), (∀ d ∈ ds, d.index = i) →
      ds.foldl applyToolCallDelta [(i, tc)] = [(i, ds.foldl updateAccum tc)] := by
  intro ds
  induction ds with
  | nil => intro tc h; rfl
  | cons d ds ih =>
      intro tc h
      have hd : d.index = i := h d (List.mem_cons_self d ds)
      have hstep : applyToolCallDelta [(i, tc)] d = [(i, updateAccum tc d)] := by
        simp [applyToolCallDelta, hd]
      rw [List.foldl_cons, hstep, ih (updateAccum tc d) (fun x hx => h x (List.mem_cons_of_mem d hx)),
        List.foldl_cons]

lemma foldl_applyToolCallDelta_fresh (i : Nat) (d : ToolCallDelta) (ds : List ToolCallDelta)
    (hd : d.index = i) (hds : ∀ x ∈ ds, x.index = i) :
    (d :: ds).foldl applyToolCallDelta [] =
      [(i, (d :: ds).foldl updateAccum (ToolCallAccum.mk "" "" ""))] := by
  have hfirst : applyToolCallDelta [] d =
      [(i, updateAccum (ToolCallAccum.mk (tsOr d.id) (tsOr d.name) "") d)] := by
    simp [applyToolCallDelta, hd]
  rw [List.foldl_cons, hfirst, foldl_applyToolCallDelta_single i ds _ hds,
    updateAccum_init_eq, List.foldl_cons]

lemma processChunk_toolCalls (st : StreamState) (c : Chunk) :
    (processChunk st c).toolCalls = c.tool_calls.foldl applyToolCallDelta st.toolCalls := by
  by_cases h : tsTruthy c.content <;> simp [processChunk, h]

lemma foldl_processChunk_toolCalls (chunks : List Chunk) :
    ∀ st : StreamState,
      (chunks.foldl processChunk st).toolCalls =
        ((chunks.map Chunk.tool_calls).flatten).foldl applyToolCallDelta st.toolCalls := by
  induction chunks with
  | nil => intro st; rfl
  | cons c cs ih =>
      intro st
      rw [List.foldl_cons, ih (processChunk st c), List.map_cons, List.flatten_cons,
        List.foldl_append, processChunk_toolCalls]

lemma foldl_updateAccum_arguments (ds : List ToolCallDelta) :
    ∀ tc : ToolCallAccum,
      (ds.foldl updateAccum tc).arguments =
        ds.foldl (fun acc d => acc ++ tsOr d.arguments) tc.arguments := by
  induction ds with
  | nil => intro tc; rfl
  | cons d ds ih =>
      intro tc
      rw [List.foldl_cons, ih (updateAccum tc d), updateAccum_arguments, List.foldl_cons]

lemma foldl_updateAccum_id (ds : List ToolCallDelta) :
    ∀ tc : ToolCallAccum,
      (ds.foldl updateAccum tc).id =
        ds.foldl (fun x d => if tsTruthy d.id then tsOr d.id else x) tc.id := by
  induction ds with
  | nil => intro tc; rfl
  | cons d ds ih =>
      intro tc
      rw [List.foldl_cons, ih (updateAccum tc d), updateAccum_id, List.foldl_cons]

lemma foldl_updateAccum_name (ds : List ToolCallDelta) :
    ∀ tc : ToolCallAccum,
      (ds.foldl updateAccum tc).name =
        ds.foldl (fun x d => if tsTruthy d.name then tsOr d.name else x) tc.name := by
  induction ds with
  | nil => intro tc; rfl
  | cons d ds ih =>
      intro tc
      rw [List.foldl_cons, ih (updateAccum tc d), updateAccum_name, List.foldl_cons]

lemma accum_characterization (chunks : List Chunk) (i : Nat)
    (h : ∀ d ∈ (chunks.map Chunk.tool_calls).flatten, d.index = i)
    (hne : (chunks.map Chunk.tool_calls).flatten ≠ []) :
    mapGet (chunks.foldl processChunk initStreamState).toolCalls i =
      some (((chunks.map Chunk.tool_calls).flatten).foldl updateAccum
        (ToolCallAccum.mk "" "" "")) := by
  rw [mapGet, foldl_processChunk_toolCalls chunks initStreamState]
  cases hds : (chunks.map Chunk.tool_calls).flatten with
  | nil => exact absurd hds hne
  | cons d ds =>
      rw [hds] at h
      have hd : d.index = i := h d (List.mem_cons_self d ds)
      have hrest : ∀ x ∈ ds, x.index = i := fun x hx => h x (List.mem_cons_of_mem d hx)
      rw [show initStreamState.toolCalls = [] from rfl,
        foldl_applyToolCallDelta_fresh i d ds hd hrest]
      simp [List.find?]

/-- C3: when every tool-call delta of a streamed response is tagged with
the same index, the final argument text accumulated for that index — the
text the loop hands to JSON parsing and to the executor — is the
concatenation, in arrival order, of the argument fragments of the deltas. -/
theorem fragment_reassembly (chunks : List Chunk) (i : Nat)
    (h : ∀ d ∈ (chunks.map Chunk.tool_calls).flatten, d.index = i)
    (hne : (chunks.map Chunk.tool_calls).flatten ≠ []) :
    (mapGet (chunks.foldl processChunk initStreamState).toolCalls i).map
        ToolCallAccum.arguments =
      some (((chunks.map Chunk.tool_calls).flatten).foldl
        (fun acc d => acc ++ tsOr d.arguments) "") := by
  rw [accum_characterization chunks i h hne]
  simp [foldl_updateAccum_arguments]

/-- Witness for C3: the three fragments of the split response reassemble
to the full JSON argument text. -/
theorem fragment_reassembly_witness :
    (∀ d ∈ (chunksSplit.map Chunk.tool_calls).flatten, d.index = 0) ∧
    (mapGet (chunksSplit.foldl processChunk initStreamState).toolCalls 0).map
        ToolCallAccum.arguments = some "\x7b\"a\":1,\"b\":2\x7d" :=
  ⟨by decide,
   (fragment_reassembly chunksSplit 0 (by decide) (by decide)).trans (by decide)⟩

/-- C5 counterexample: for the stream chunksIdOverwrite, the first delta
of index zero carries the non-empty id call_a and name tool_one, yet a
later delta carrying id call_b and name tool_two changes the recorded
values — the accumulator does not latch id and name on first sight. -/
theorem id_latch_counterexample :
    (mapGet (chunksIdOverwrite.foldl processChunk initStreamState).toolCalls 0).map
        ToolCallAccum.id = some "call_b" ∧
    ¬((mapGet (chunksIdOverwrite.foldl processChunk initStreamState).toolCalls 0).map
        ToolCallAccum.id = some "call_a") ∧
    (mapGet (chunksIdOverwrite.foldl processChunk initStreamState).toolCalls 0).map
        ToolCallAccum.name = some "tool_two" := by
  decide

/-- C5 amended: for an index all of whose deltas share it, the recorded id
and name are last-write-wins — each delta carrying a non-empty id
(respectively name) overwrites the recorded value, so the final value is
the last non-empty one (and when at most one delta carries the field, that
one); argument fragments are still appended, per the C3 theorem. -/
theorem id_name_last_write (chunks : List Chunk) (i : Nat)
    (h : ∀ d ∈ (chunks.map Chunk.tool_calls).flatten, d.index = i)
    (hne : (chunks.map Chunk.tool_calls).flatten ≠ []) :
    (mapGet (chunks.foldl processChunk initStreamState).toolCalls i).map
        ToolCallAccum.id =
      some (((chunks.map Chunk.tool_calls).flatten).foldl
        (fun x d => if tsTruthy d.id then tsOr d.id else x) "") ∧
    (mapGet (chunks.foldl processChunk initStreamState).toolCalls i).map
        ToolCallAccum.name =
      some (((chunks.map Chunk.tool_calls).flatten).foldl
        (fun x d => if tsTruthy d.name then tsOr d.name else x) "") := by
  rw [accum_characterization chunks i h hne]
  constructor
  · simp [foldl_updateAccum_id]
  · simp [foldl_updateAccum_name]

/-- Witness for the amended C5 at the concrete overwriting stream. -/
theorem id_name_last_write_witness :
    (∀ d ∈ (chunksIdOverwrite.map Chunk.tool_calls).flatten, d.index = 0) ∧
    (mapGet (chunksIdOverwrite.foldl processChunk initStreamState).toolCalls 0).map
        ToolCallAccum.id =
      some (((chunksIdOverwrite.map Chunk.tool_calls).flatten).foldl
        (fun x d => if tsTruthy d.id then tsOr d.id else x) "") :=
  ⟨by decide, (id_name_last_write chunksIdOverwrite 0 (by decide) (by decide)).1⟩

lemma execToolCalls_no_throw (env : LoopEnv)
    (hx : ∀ n a, ∃ r, env.execTool n a = Except.ok r) :
    ∀ (tcs : List ToolCallAccum) (messages : List Msg),
      (execToolCalls env tcs messages).2.2 = none ∧
      ((execToolCalls env tcs messages).1).filter isErrorEvent = [] := by
  intro tcs
  induction tcs with
  | nil => intro messages; exact ⟨rfl, rfl⟩
  | cons tc rest ih =>
      intro messages
      obtain ⟨r, hr⟩ := hx tc.name (parsedArgs env tc.arguments)
      have ihm := ih (messages ++ [toolMsg tc.id (formatToolResult r)])
      rcases hrec : execToolCalls env rest (messages ++ [toolMsg tc.id (formatToolResult r)])
        with ⟨evs2, messages2, err2⟩
      rw [hrec] at ihm
      constructor
      · simp [execToolCalls, execToolCall, hr, hrec]
        exact ihm.1
      · have hevs : (execToolCalls env (tc :: rest) messages).1 =
            [Event.tool_call tc.name (env.getToolIcon tc.name)
               (env.getToolLabel tc.name false) tc.id,
             Event.tool_result tc.id tc.name (env.getToolIcon tc.name)
               (env.getToolLabel tc.name true) (env.extractResultUrl r.output) r.success
               (if env.shouldSuppressOutput tc.name then none else some r.output)
               r.error] ++ evs2 := by
          simp [execToolCalls, execToolCall, hr, hrec]
        rw [hevs, List.filter_append, ihm.2]
        simp [isErrorEvent]

lemma processChunk_events (st : StreamState) (c : Chunk) :
    (processChunk st c).events = st.events ∨
    ∃ s, (processChunk st c).events = st.events ++ [Event.content s] := by
  by_cases h : tsTruthy c.content
  · exact Or.inr ⟨tsOr c.content, by simp [processChunk, h]⟩
  · exact Or.inl (by simp [processChunk, h])

lemma foldl_processChunk_events_filter (chunks : List Chunk) :
    ∀ st : StreamState,
      ((chunks.foldl processChunk st).events).filter isErrorEvent =
        st.events.filter isErrorEvent := by
  induction chunks with
  | nil => intro st; rfl
  | cons c cs ih =>
      intro st
      rw [List.foldl_cons, ih]
      rcases processChunk_events st c with h | ⟨s, h⟩
      · rw [h]
      · rw [h, List.filter_append]
        simp [isErrorEvent]

lemma loopAux_run_forever (env : LoopEnv) (cfg : AgentLoopConfig)
    (H1 : ∀ msgs, ∃ chunks, env.model msgs = Except.ok chunks ∧
      0 < (chunks.foldl processChunk initStreamState).toolCalls.length)
    (H2 : ∀ n a, ∃ r, env.execTool n a = Except.ok r) :
    ∀ (fuel : Nat) (msgs : List Msg) (iter : Nat),
      (loopAux env cfg fuel msgs iter).modelCalls = fuel ∧
      (loopAux env cfg fuel msgs iter).iteration = iter + fuel ∧
      ((loopAux env cfg fuel msgs iter).events).filter isErrorEvent = [] := by
  intro fuel
  induction fuel with
  | zero => intro msgs iter; exact ⟨rfl, rfl, rfl⟩
  | succ fuel ih =>
      intro msgs iter
      obtain ⟨chunks, hm, hlen⟩ := H1 msgs
      have hex := execToolCalls_no_throw env H2
        ((chunks.foldl processChunk initStreamState).toolCalls.map Prod.snd)
        (msgs ++ [assistantMsgOf (chunks.foldl processChunk initStreamState)])
      rcases hrec : execToolCalls env
          ((chunks.foldl processChunk initStreamState).toolCalls.map Prod.snd)
          (msgs ++ [assistantMsgOf (chunks.foldl processChunk initStreamState)])
        with ⟨tevs, messages2, err⟩
      rw [hrec] at hex
      have herr : err = none := hex.1
      subst herr
      have ihm := ih messages2 (iter + 1)
      have hfe : ((chunks.foldl processChunk initStreamState).events).filter isErrorEvent = [] := by
        rw [foldl_processChunk_events_filter]
        rfl
      refine ⟨?_, ?_, ?_⟩
      · simp [loopAux, hm, hlen, hrec]
        exact ihm.1
      · simp [loopAux, hm, hlen, hrec]
        rw [ihm.2.1]
        omega
      · simp [loopAux, hm, hlen, hrec, isErrorEvent, List.filter_append, hfe,
          ihm.2.2, hex.2]

/-- C1: when every model response succeeds and accumulates at least one
tool call and no tool executor ever throws, the streaming loop performs
exactly maxIterations model invocations, its error events are exactly the
single iteration-cap error, and it terminates (loopAux is total). -/
theorem iteration_cap_on_runaway (env : LoopEnv) (cfg : AgentLoopConfig)
    (initialMessages : List Msg)
    (H1 : ∀ msgs, ∃ chunks, env.model msgs = Except.ok chunks ∧
      0 < (chunks.foldl processChunk initStreamState).toolCalls.length)
    (H2 : ∀ n a, ∃ r, env.execTool n a = Except.ok r) :
    (runAgentLoopStreaming env initialMessages cfg).modelCalls = cfg.maxIterations ∧
    ((runAgentLoopStreaming env initialMessages cfg).events).filter isErrorEvent =
      [Event.error (maxIterationsError cfg.maxIterations)] := by
  have hl := loopAux_run_forever env cfg H1 H2 cfg.maxIterations initialMessages 0
  have hge : cfg.maxIterations ≤
      (loopAux env cfg cfg.maxIterations initialMessages 0).iteration := by
    rw [hl.2.1]
    omega
  constructor
  · simp [runAgentLoopStreaming, hge]
    exact hl.1
  · simp [runAgentLoopStreaming, hge, List.filter_append, hl.2.2, isErrorEvent]

/-- Witness for C1: with a model that always requests one tool call and a
tool that always succeeds, a two-iteration run makes two model calls and
emits exactly the cap error among error events. -/
theorem iteration_cap_on_runaway_witness :
    (runAgentLoopStreaming loopEnvTC [] cfgTwo).modelCalls = 2 ∧
    ((runAgentLoopStreaming loopEnvTC [] cfgTwo).events).filter isErrorEvent =
      [Event.error (maxIterationsError 2)] :=
  iteration_cap_on_runaway loopEnvTC cfgTwo []
    (fun _ => ⟨[chunkTC], rfl, by decide⟩)
    (fun _ _ => ⟨ToolResult.mk true "done" none, rfl⟩)

lemma loopAux_no_throw_no_error (env : LoopEnv) (cfg : AgentLoopConfig)
    (hm : ∀ msgs, ∃ chunks, env.model msgs = Except.ok chunks)
    (hx : ∀ n a, ∃ r, env.execTool n a = Except.ok r) :
    ∀ (fuel : Nat) (msgs : List Msg) (iter : Nat),
      ((loopAux env cfg fuel msgs iter).events).filter isErrorEvent = [] := by
  intro fuel
  induction fuel with
  | zero => intro msgs iter; rfl
  | succ fuel ih =>
      intro msgs iter
      obtain ⟨chunks, hmo⟩ := hm msgs
      have hfe : ((chunks.foldl processChunk initStreamState).events).filter isErrorEvent = [] := by
        rw [foldl_processChunk_events_filter]
        rfl
      by_cases hlen : 0 < (chunks.foldl processChunk initStreamState).toolCalls.length
      · have hex := execToolCalls_no_throw env hx
          ((chunks.foldl processChunk initStreamState).toolCalls.map Prod.snd)
          (msgs ++ [assistantMsgOf (chunks.foldl processChunk initStreamState)])
        rcases hrec : execToolCalls env
            ((chunks.foldl processChunk initStreamState).toolCalls.map Prod.snd)
            (msgs ++ [assistantMsgOf (chunks.foldl processChunk initStreamState)])
          with ⟨tevs, messages2, err⟩
        rw [hrec] at hex
        have herr : err = none := hex.1
        subst herr
        simp [loopAux, hmo, hlen, hrec, isErrorEvent, List.filter_append, hfe,
          ih messages2 (iter + 1), hex.2]
      · by_cases hc : (chunks.foldl processChunk initStreamState).assistantContent == ""
        · simp [loopAux, hmo, hlen, hc, isErrorEvent, List.filter_append, hfe]
        · simp [loopAux, hmo, hlen, hc, isErrorEvent, hfe]

/-- C4 amended: when the model and the tools never throw, the streaming
loop emits the iteration-cap error event exactly when the final iteration
counter reached maxIterations — including when the final permitted
iteration ended with a no-tool-calls terminal answer; a run ending with
the counter below the bound emits no cap error. -/
theorem iteration_cap_iff_counter_reached (env : LoopEnv) (cfg : AgentLoopConfig)
    (initialMessages : List Msg)
    (hm : ∀ msgs, ∃ chunks, env.model msgs = Except.ok chunks)
    (hx : ∀ n a, ∃ r, env.execTool n a = Except.ok r) :
    (Event.error (maxIterationsError cfg.maxIterations) ∈
        (runAgentLoopStreaming env initialMessages cfg).events) ↔
      cfg.maxIterations ≤ (loopAux env cfg cfg.maxIterations initialMessages 0).iteration := by
  have hno := loopAux_no_throw_no_error env cfg hm hx cfg.maxIterations initialMessages 0
  have hnotmem : Event.error (maxIterationsError cfg.maxIterations) ∉
      (loopAux env cfg cfg.maxIterations initialMessages 0).events := by
    intro hmem
    have hin : Event.error (maxIterationsError cfg.maxIterations) ∈
        ((loopAux env cfg cfg.maxIterations initialMessages 0).events).filter isErrorEvent :=
      List.mem_filter.mpr ⟨hmem, rfl⟩
    rw [hno] at hin
    exact absurd hin (List.not_mem_nil _)
  constructor
  · intro hmem
    by_contra hnge
    have heq : runAgentLoopStreaming env initialMessages cfg =
        loopAux env cfg cfg.maxIterations initialMessages 0 := by
      simp [runAgentLoopStreaming, hnge]
    rw [heq] at hmem
    exact hnotmem hmem
  · intro hge
    have heq : (runAgentLoopStreaming env initialMessages cfg).events =
        (loopAux env cfg cfg.maxIterations initialMessages 0).events ++
          [Event.error (maxIterationsError cfg.maxIterations)] := by
      simp [runAgentLoopStreaming, hge]
    rw [heq]
    exact List.mem_append_right _ (List.mem_singleton.mpr rfl)

/-- Witness for the amended C4 at the concrete terminal environment. -/
theorem iteration_cap_iff_counter_reached_witness :
    (Event.error (maxIterationsError 1) ∈
        (runAgentLoopStreaming loopEnvTerminal [] cfgOne).events) ↔
      1 ≤ (loopAux loopEnvTerminal cfgOne 1 [] 0).iteration :=
  iteration_cap_iff_counter_reached loopEnvTerminal cfgOne []
    (fun _ => ⟨[Chunk.mk (some "hi") [] (some "stop")], rfl⟩)
    (fun _ _ => ⟨ToolResult.mk true "" none, rfl⟩)

/-- C4 counterexample: with maxIterations one, a run whose single (hence
final permitted) iteration ends with a no-tool-calls answer — the content
hi is appended to history as the terminal assistant message — still emits
the iteration-cap error event, contradicting the claim that such a run
emits none. -/
theorem iteration_cap_after_terminal_turn :
    Event.error (maxIterationsError 1) ∈
      (runAgentLoopStreaming loopEnvTerminal [] cfgOne).events ∧
    (runAgentLoopStreaming loopEnvTerminal [] cfgOne).messages =
      [Msg.mk Role.assistant (some "hi") [] none] := by
  decide

/-- C2: in one iteration of the streaming loop whose stream accumulated
the tool calls A then B then C (at stream indexes in that order) and whose
executor is the pure function f, the calls execute strictly sequentially
in that order — the events are tool-call A, tool-result A, then B, then C
— and the history passed to the next iteration is the previous messages,
the assistant message, then the tool messages for A, B and C in that
order, each tool message built with the id of its request. -/
theorem tool_calls_executed_in_declaration_order
    (env : LoopEnv) (cfg : AgentLoopConfig) (f : String → Json → ToolResult)
    (hf : env.execTool = fun n a => Except.ok (f n a))
    (fuel iter : Nat) (msgs : List Msg) (chunks : List Chunk)
    (hm : env.model msgs = Except.ok chunks)
    (iA iB iC : Nat) (A B C : ToolCallAccum)
    (hst : (chunks.foldl processChunk initStreamState).toolCalls = [(iA, A), (iB, B), (iC, C)])
    (rA rB rC : ToolResult)
    (hrA : rA = f A.name (parsedArgs env A.arguments))
    (hrB : rB = f B.name (parsedArgs env B.arguments))
    (hrC : rC = f C.name (parsedArgs env C.arguments))
    (msgs2 : List Msg)
    (hmsgs2 : msgs2 = msgs ++ [assistantMsgOf (chunks.foldl processChunk initStreamState)] ++
      [toolMsg A.id (formatToolResult rA), toolMsg B.id (formatToolResult rB),
       toolMsg C.id (formatToolResult rC)]) :
    loopAux env cfg (fuel + 1) msgs iter =
      LoopOut.mk
        (Event.iteration (iter + 1) cfg.maxIterations ::
          ((chunks.foldl processChunk initStreamState).events ++
            ([Event.tool_call A.name (env.getToolIcon A.name) (env.getToolLabel A.name false) A.id,
              Event.tool_result A.id A.name (env.getToolIcon A.name) (env.getToolLabel A.name true)
                (env.extractResultUrl rA.output) rA.success
                (if env.shouldSuppressOutput A.name then none else some rA.output) rA.error,
              Event.tool_call B.name (env.getToolIcon B.name) (env.getToolLabel B.name false) B.id,
              Event.tool_result B.id B.name (env.getToolIcon B.name) (env.getToolLabel B.name true)
                (env.extractResultUrl rB.output) rB.success
                (if env.shouldSuppressOutput B.name then none else some rB.output) rB.error,
              Event.tool_call C.name (env.getToolIcon C.name) (env.getToolLabel C.name false) C.id,
              Event.tool_result C.id C.name (env.getToolIcon C.name) (env.getToolLabel C.name true)
                (env.extractResultUrl rC.output) rC.success
                (if env.shouldSuppressOutput C.name then none else some rC.output) rC.error] ++
              (loopAux env cfg fuel msgs2 (iter + 1)).events)))
        (loopAux env cfg fuel msgs2 (iter + 1)).messages
        (loopAux env cfg fuel msgs2 (iter + 1)).iteration
        ((loopAux env cfg fuel msgs2 (iter + 1)).modelCalls + 1) := by
  subst hrA hrB hrC hmsgs2
  simp [loopAux, hm, hst, execToolCalls, execToolCall, hf]

/-- Witness for C2: a concrete one-iteration run with tool calls A, B, C
at indexes zero, one, two, executed in order with matching ids. -/
theorem tool_calls_executed_in_declaration_order_witness :
    (chunksABC.foldl processChunk initStreamState).toolCalls =
      [(0, accumA), (1, accumB), (2, accumC)] ∧
    loopAux loopEnvABC cfgTwo 1 [] 0 =
      LoopOut.mk
        [Event.iteration 1 2,
         Event.tool_call "toolA" "gearshape" "Working..." "call_a",
         Event.tool_result "call_a" "toolA" "gearshape" "Working..." none true
           (some "ran toolA") none,
         Event.tool_call "toolB" "gearshape" "Working..." "call_b",
         Event.tool_result "call_b" "toolB" "gearshape" "Working..." none true
           (some "ran toolB") none,
         Event.tool_call "toolC" "gearshape" "Working..." "call_c",
         Event.tool_result "call_c" "toolC" "gearshape" "Working..." none true
           (some "ran toolC") none]
        [Msg.mk Role.assistant none
           [ToolCallRequest.mk "call_a" "toolA" "\x7b\x7d",
            ToolCallRequest.mk "call_b" "toolB" "\x7b\x7d",
            ToolCallRequest.mk "call_c" "toolC" "\x7b\x7d"] none,
         Msg.mk Role.tool (some "ran toolA") [] (some "call_a"),
         Msg.mk Role.tool (some "ran toolB") [] (some "call_b"),
         Msg.mk Role.tool (some "ran toolC") [] (some "call_c")]
        1 1 :=
  ⟨by decide,
   (tool_calls_executed_in_declaration_order loopEnvABC cfgTwo execABC rfl 0 0 [] chunksABC rfl
      0 1 2 accumA accumB accumC (by decide) _ _ _ rfl rfl rfl _ rfl).trans (by decide)⟩
